import Mathlib

/-!
Verification of the NED-EPEX-Forecast coordinator pipeline
(`custom_components/ned_epex_forecast/`).

The Python code is shallowly embedded over `ℚ`:
* floating point numbers become rationals,
* Python's `round(x, d)` (round half to even) becomes `roundTo d`,
* timestamps become minute counts (`ℕ`) where they originate from the NED
  API / hourly buckets, and plain rationals where they come from the
  recorder history (seconds),
* dictionaries whose key set matters are association lists.
-/

namespace NedEpex

/-- Python's `round` on a rational scaled into integer position:
round half to even ("banker's rounding"). -/
def rhe (x : ℚ) : ℤ :=
  let n := ⌊x⌋
  let f := x - n
  if f < 1/2 then n
  else if 1/2 < f then n + 1
  else if Even n then n else n + 1

/-- Python's `round(x, d)` for non-negative `d`. -/
def roundTo (d : ℕ) (x : ℚ) : ℚ := (rhe (x * (10 : ℚ) ^ d) : ℚ) / (10 : ℚ) ^ d

/-- `round(x, 2)`, as used for prices. -/
def round2 : ℚ → ℚ := roundTo 2

/-- `round(x, 3)`, as used for GW figures. -/
def round3 : ℚ → ℚ := roundTo 3

theorem rhe_bounds (x : ℚ) : x - 1/2 ≤ (rhe x : ℚ) ∧ (rhe x : ℚ) ≤ x + 1/2 := by
  have hfl : (⌊x⌋ : ℚ) ≤ x := Int.floor_le x
  have hfu : x < (⌊x⌋ : ℚ) + 1 := Int.lt_floor_add_one x
  unfold rhe
  simp only
  split
  · constructor <;> [linarith; linarith]
  · split
    · push_cast
      constructor <;> [linarith; linarith]
    · rename_i h1 h2
      have hf : x - (⌊x⌋ : ℚ) = 1/2 := le_antisymm (not_lt.mp h2) (not_lt.mp h1)
      split <;> (push_cast; constructor <;> linarith)

theorem rhe_mono {x y : ℚ} (hxy : x ≤ y) : rhe x ≤ rhe y := by
  by_contra hlt
  push_neg at hlt
  have h1 : rhe y + 1 ≤ rhe x := hlt
  have hx := rhe_bounds x
  have hy := rhe_bounds y
  have h2 : ((rhe y : ℚ) + 1) ≤ (rhe x : ℚ) := by exact_mod_cast h1
  have hyx : y ≤ x := by linarith [hx.2, hy.1]
  have hxx : x = y := le_antisymm hxy hyx
  subst hxx
  omega

theorem rhe_intCast (n : ℤ) : rhe (n : ℚ) = n := by
  unfold rhe
  simp [Int.floor_intCast]

theorem roundTo_bounds (d : ℕ) (x : ℚ) :
    x - 1 / (2 * (10 : ℚ) ^ d) ≤ roundTo d x ∧
    roundTo d x ≤ x + 1 / (2 * (10 : ℚ) ^ d) := by
  have hp : (0 : ℚ) < (10 : ℚ) ^ d := by positivity
  have h := rhe_bounds (x * (10 : ℚ) ^ d)
  unfold roundTo
  constructor
  · rw [le_div_iff hp]
    have : x * 10 ^ d - 1/2 ≤ (rhe (x * 10 ^ d) : ℚ) := h.1
    have hexp : (x - 1 / (2 * (10 : ℚ) ^ d)) * (10 : ℚ) ^ d = x * 10 ^ d - 1/2 := by
      field_simp
      ring
    linarith [hexp ▸ (le_of_eq hexp.symm)]
  · rw [div_le_iff hp]
    have : (rhe (x * 10 ^ d) : ℚ) ≤ x * 10 ^ d + 1/2 := h.2
    have hexp : (x + 1 / (2 * (10 : ℚ) ^ d)) * (10 : ℚ) ^ d = x * 10 ^ d + 1/2 := by
      field_simp
      ring
    linarith

theorem roundTo_mono (d : ℕ) {x y : ℚ} (hxy : x ≤ y) : roundTo d x ≤ roundTo d y := by
  have hp : (0 : ℚ) < (10 : ℚ) ^ d := by positivity
  have h : rhe (x * (10 : ℚ) ^ d) ≤ rhe (y * (10 : ℚ) ^ d) :=
    rhe_mono (by exact mul_le_mul_of_nonneg_right hxy hp.le)
  have h2 : ((rhe (x * (10 : ℚ) ^ d) : ℤ) : ℚ) ≤ ((rhe (y * (10 : ℚ) ^ d) : ℤ) : ℚ) := by
    exact_mod_cast h
  unfold roundTo
  gcongr

theorem roundTo_idem (d : ℕ) (x : ℚ) : roundTo d (roundTo d x) = roundTo d x := by
  have hp : ((10 : ℚ) ^ d) ≠ 0 := by positivity
  unfold roundTo
  rw [div_mul_cancel₀ _ hp, rhe_intCast]

theorem round2_mono {x y : ℚ} (hxy : x ≤ y) : round2 x ≤ round2 y :=
  roundTo_mono 2 hxy

theorem round2_idem (x : ℚ) : round2 (round2 x) = round2 x := roundTo_idem 2 x

theorem round2_bounds (x : ℚ) : x - 1/200 ≤ round2 x ∧ round2 x ≤ x + 1/200 := by
  have h := roundTo_bounds 2 x
  norm_num at h
  unfold round2
  constructor <;> [linarith [h.1]; linarith [h.2]]

theorem rhe_eq_of_lt {y : ℚ} {n : ℤ} (h1 : (n : ℚ) - 1/2 < y) (h2 : y < (n : ℚ) + 1/2) :
    rhe y = n := by
  have hb := rhe_bounds y
  have hlo : ((n : ℤ) : ℚ) - 1 < (rhe y : ℚ) := by linarith [hb.1]
  have hhi : (rhe y : ℚ) < ((n : ℤ) : ℚ) + 1 := by linarith [hb.2]
  have hlo' : (n : ℤ) - 1 < rhe y := by exact_mod_cast hlo
  have hhi' : rhe y < (n : ℤ) + 1 := by exact_mod_cast hhi
  omega

theorem roundTo_eq (d : ℕ) (x : ℚ) (n : ℤ)
    (h1 : (n : ℚ) - 1/2 < x * (10 : ℚ) ^ d) (h2 : x * (10 : ℚ) ^ d < (n : ℚ) + 1/2) :
    roundTo d x = (n : ℚ) / (10 : ℚ) ^ d := by
  unfold roundTo
  rw [rhe_eq_of_lt h1 h2]

/-! ### The NED API data points and the hourly combiner (`_combine_ned_data`) -/

/-- One record of a NED `values` array: `validfrom` (parsed timestamp, in
minutes; `none` models a missing or unparseable string) and `value` (`none`
models an absent `"value"` key, read with `.get("value", 0)`). -/
structure NedPoint where
  validfrom : Option ℕ
  value : Option ℚ
deriving DecidableEq

/-- `point.get("value", 0)`. -/
def valueD (p : NedPoint) : ℚ := p.value.getD 0

/-- `timestamp.replace(minute=0, second=0, microsecond=0)` on a timestamp in
minutes: truncate down to the hour. -/
def hourKey (t : ℕ) : ℕ := 60 * (t / 60)

/-- One entry of the combined hourly forecast emitted by `_combine_ned_data`. -/
structure ForecastEntry where
  timestamp : ℕ
  consumption_gw : ℚ
  wind_onshore_gw : ℚ
  wind_offshore_gw : ℚ
  solar_gw : ℚ
  restlast_gw : ℚ
deriving DecidableEq

/-- The hour bucket of the `i`-th consumption point, when that point carries a
parseable timestamp. -/
def consKeyAt (cons : List NedPoint) (i : ℕ) : Option ℕ :=
  (cons.get? i).bind (fun p => p.validfrom.map hourKey)

/-- Indices of consumption points that fall into hour bucket `k`,
in iteration order. -/
def validIdx (cons : List NedPoint) (k : ℕ) : List ℕ :=
  (List.range cons.length).filter (fun i => consKeyAt cons i = some k)

/-- The consumption values collected into bucket `k`. -/
def consBucket (cons : List NedPoint) (k : ℕ) : List ℚ :=
  (validIdx cons k).map (fun i => (((cons.get? i).map valueD).getD 0))

/-- The values of one of the other series (`wind_on_values[idx]`,
`wind_off_values[idx]`, `solar_values[idx]`) collected into bucket `k`: the
series is indexed by the consumption point's position (`idx`), guarded by
`idx < len(...)`, and only its `value` field is ever read (`vals` is the
series' value column). -/
def otherBucket (cons : List NedPoint) (vals : List ℚ) (k : ℕ) : List ℚ :=
  ((validIdx cons k).filter (fun i => i < vals.length)).map
    (fun i => ((vals.get? i).getD 0))

/-- The value column of a series. -/
def otherVals (series : List NedPoint) : List ℚ := series.map valueD

/-- `sum(lst) / len(lst) if lst else 0`. -/
def bucketAvg (l : List ℚ) : ℚ := if l = [] then 0 else l.sum / l.length

/-- The keys of the `hourly_data` dict, iterated in sorted order
(`sorted(hourly_data.keys())`): dict keys are unique (first insertion wins),
and the loop walks them ascending. -/
def hourKeys (cons : List NedPoint) : List ℕ :=
  ((cons.filterMap (fun p => p.validfrom.map hourKey)).dedup).insertionSort (· ≤ ·)

/-- The forecast entry `_combine_ned_data` appends for hour bucket `k`. -/
def mkForecastEntry (cons w1 w2 s : List NedPoint) (k : ℕ) : ForecastEntry :=
  let avg_consumption := bucketAvg (consBucket cons k)
  let avg_wind_on := bucketAvg (otherBucket cons (otherVals w1) k)
  let avg_wind_off := bucketAvg (otherBucket cons (otherVals w2) k)
  let avg_solar := bucketAvg (otherBucket cons (otherVals s) k)
  let consumption_gw := avg_consumption / 1000
  let wind_on_gw := avg_wind_on / 1000
  let wind_off_gw := avg_wind_off / 1000
  let solar_gw := avg_solar / 1000
  let restlast_gw := consumption_gw - (wind_on_gw + wind_off_gw + solar_gw)
  { timestamp := k
    consumption_gw := round3 consumption_gw
    wind_onshore_gw := round3 wind_on_gw
    wind_offshore_gw := round3 wind_off_gw
    solar_gw := round3 solar_gw
    restlast_gw := round3 restlast_gw }

/-- `_combine_ned_data`: group the consumption points by the hour of their own
timestamp, pull the other series in by index, average each bucket, convert MW
to GW and compute the restlast. -/
def combineNedData (cons w1 w2 s : List NedPoint) : List ForecastEntry :=
  (hourKeys cons).map (mkForecastEntry cons w1 w2 s)



theorem mem_hourKeys {cons : List NedPoint} {k : Nat} :
    k ∈ hourKeys cons ↔ k ∈ cons.filterMap (fun p => p.validfrom.map hourKey) := by
  unfold hourKeys
  rw [(List.perm_insertionSort _ _).mem_iff, List.mem_dedup]

theorem sixty_dvd_of_mem_hourKeys {cons : List NedPoint} {k : Nat}
    (hk : k ∈ hourKeys cons) : 60 ∣ k := by
  rw [mem_hourKeys] at hk
  obtain ⟨p, _, hp⟩ := List.mem_filterMap.mp hk
  obtain ⟨t, _, ht⟩ := Option.map_eq_some'.mp hp
  exact ht ▸ Dvd.intro _ rfl

/-- C2: in every emitted entry, `restlast_gw` is the bucket average of
consumption minus the sum of the bucket averages of the three renewable
series, each first converted MW → GW, rounded to 3 decimals at the very
end. -/
theorem restlast_formula (cons w1 w2 s : List NedPoint) (e : ForecastEntry)
    (he : e ∈ combineNedData cons w1 w2 s) :
    ∃ k ∈ hourKeys cons, e = mkForecastEntry cons w1 w2 s k ∧
      e.restlast_gw = round3 (bucketAvg (consBucket cons k) / 1000 -
        (bucketAvg (otherBucket cons (otherVals w1) k) / 1000 +
         bucketAvg (otherBucket cons (otherVals w2) k) / 1000 +
         bucketAvg (otherBucket cons (otherVals s) k) / 1000)) := by
  obtain ⟨k, hk, rfl⟩ := List.mem_map.mp he
  exact ⟨k, hk, rfl, rfl⟩

def c2cons : List NedPoint := [⟨some 0, some 1000⟩]

def c2entry : ForecastEntry := ⟨0, 1, 0, 0, 0, 1⟩

/-- Witness for C2 at a one-point input. -/
theorem restlast_formula_witness :
    ∃ k ∈ hourKeys c2cons, c2entry = mkForecastEntry c2cons [] [] [] k ∧
      c2entry.restlast_gw = round3 (bucketAvg (consBucket c2cons k) / 1000 -
        (bucketAvg (otherBucket c2cons (otherVals []) k) / 1000 +
         bucketAvg (otherBucket c2cons (otherVals []) k) / 1000 +
         bucketAvg (otherBucket c2cons (otherVals []) k) / 1000)) :=
  restlast_formula c2cons [] [] [] c2entry (by
    norm_num [combineNedData, hourKeys, hourKey, mkForecastEntry, c2cons, c2entry,
      bucketAvg, consBucket, otherBucket, otherVals, validIdx, consKeyAt, valueD,
      List.filterMap, List.dedup, List.insertionSort, List.orderedInsert,
      List.range_succ, round3, roundTo, rhe])

/-! ### Spec-side combiner for C6 -/

/-- Modelled from the spec: "buckets heterogeneous-granularity samples by
timestamp … assigns each sample of each series to the hourly bucket determined
by that sample own timestamp before averaging within the bucket". Each series
is grouped by the hour of its own samples. -/
def selfBucket (series : List NedPoint) (k : Nat) : List ℚ :=
  series.filterMap (fun p =>
    if p.validfrom.map hourKey = some k then some (valueD p) else none)

/-- Modelled from the spec: the bucket keys are the hours of all samples of
all series. -/
def allHourKeys (cons w1 w2 s : List NedPoint) : List Nat :=
  (((cons ++ w1 ++ w2 ++ s).filterMap
      (fun p => p.validfrom.map hourKey)).dedup).insertionSort (· ≤ ·)

/-- Modelled from the spec: one bucket entry with every series averaged over
its own samples, with the same unit conversion, restlast formula and rounding
as the code. -/
def mkEntryBySelf (cons w1 w2 s : List NedPoint) (k : Nat) : ForecastEntry :=
  let consumption_gw := bucketAvg (selfBucket cons k) / 1000
  let wind_on_gw := bucketAvg (selfBucket w1 k) / 1000
  let wind_off_gw := bucketAvg (selfBucket w2 k) / 1000
  let solar_gw := bucketAvg (selfBucket s k) / 1000
  let restlast_gw := consumption_gw - (wind_on_gw + wind_off_gw + solar_gw)
  { timestamp := k
    consumption_gw := round3 consumption_gw
    wind_onshore_gw := round3 wind_on_gw
    wind_offshore_gw := round3 wind_off_gw
    solar_gw := round3 solar_gw
    restlast_gw := round3 restlast_gw }

/-- Modelled from the spec: the combiner the spec sentence describes. -/
def combineBySampleTimestamp (cons w1 w2 s : List NedPoint) : List ForecastEntry :=
  (allHourKeys cons w1 w2 s).map (mkEntryBySelf cons w1 w2 s)

def c6cons : List NedPoint := [⟨some 0, some 1000⟩]

def c6wind : List NedPoint := [⟨some 300, some 1000⟩]

/-- C6 counterexample: a wind-onshore sample whose own timestamp is hour 5
(minute 300) is bucketed under hour 0 — the hour of the consumption sample at
the same index — so the code output differs from own-timestamp bucketing. -/
theorem combine_self_timestamp_cex :
    combineNedData c6cons c6wind [] [] = [⟨0, 1, 1, 0, 0, 0⟩] ∧
    combineBySampleTimestamp c6cons c6wind [] [] ≠ combineNedData c6cons c6wind [] [] := by
  have hcode : combineNedData c6cons c6wind [] [] = [⟨0, 1, 1, 0, 0, 0⟩] := by
    norm_num [combineNedData, hourKeys, hourKey, mkForecastEntry, c6cons, c6wind,
      bucketAvg, consBucket, otherBucket, otherVals, validIdx, consKeyAt, valueD,
      List.filterMap, List.dedup, List.insertionSort, List.orderedInsert,
      List.range_succ, round3, roundTo, rhe]
  have hspec : combineBySampleTimestamp c6cons c6wind [] [] =
      [⟨0, 1, 0, 0, 0, 1⟩, ⟨300, 0, 1, 0, 0, -1⟩] := by
    norm_num [combineBySampleTimestamp, allHourKeys, hourKey, mkEntryBySelf,
      c6cons, c6wind, bucketAvg, selfBucket, valueD,
      List.filterMap, List.dedup, List.insertionSort, List.orderedInsert,
      round3, roundTo, rhe]
  refine ⟨hcode, ?_⟩
  rw [hcode, hspec]
  simp

theorem mkForecastEntry_ext (cons w1 w1' w2 w2' s s' : List NedPoint)
    (h1 : otherVals w1 = otherVals w1') (h2 : otherVals w2 = otherVals w2')
    (h3 : otherVals s = otherVals s') :
    mkForecastEntry cons w1 w2 s = mkForecastEntry cons w1' w2' s' := by
  funext k
  unfold mkForecastEntry
  rw [h1, h2, h3]

/-- C6 amended: the combiner buckets each consumption sample by its own
timestamp, while the other series contribute the value at the matching index
of the consumption list — their own timestamps are ignored entirely: two runs
whose wind/solar series have the same value columns produce identical output,
whatever the timestamps of those series are. -/
theorem combine_ignores_other_timestamps (cons w1 w1' w2 w2' s s' : List NedPoint)
    (h1 : otherVals w1 = otherVals w1') (h2 : otherVals w2 = otherVals w2')
    (h3 : otherVals s = otherVals s') :
    combineNedData cons w1 w2 s = combineNedData cons w1' w2' s' := by
  unfold combineNedData
  rw [mkForecastEntry_ext cons w1 w1' w2 w2' s s' h1 h2 h3]

def c6wind' : List NedPoint := [⟨some 0, some 1000⟩]

/-- Witness for the amended C6: moving the own timestamp of the wind sample
from hour 5 to hour 0 leaves the combined output unchanged. -/
theorem combine_ignores_other_timestamps_witness :
    combineNedData c6cons c6wind [] [] = combineNedData c6cons c6wind' [] [] :=
  combine_ignores_other_timestamps c6cons c6wind c6wind' [] [] [] []
    (by norm_num [otherVals, valueD, c6wind, c6wind']) rfl rfl

/-! ### The price forecaster (`_calculate_price_forecast`) -/

/-- One entry of the price forecast list. -/
structure PriceEntry where
  timestamp : Nat
  price : ℚ
  price_low : ℚ
  price_high : ℚ
  confidence_std : ℚ
  restlast_gw : ℚ
deriving DecidableEq

/-- `confidence_std = 0.5 + (hours_ahead / 48) * 1.5` where
`hours_ahead = (timestamp - now).total_seconds() / 3600`; time is carried in
minutes here, so the seconds/3600 ratio becomes minutes/60. -/
def stdAt (now : ℚ) (t : Nat) : ℚ := 1/2 + ((((t : ℚ) - now) / 60) / 48) * (3/2)

/-- The loop body of `_calculate_price_forecast` for one hourly entry. -/
def priceEntryOf (mult offset now : ℚ) (e : ForecastEntry) : PriceEntry :=
  let price := mult * e.restlast_gw + offset
  let confidence_std := stdAt now e.timestamp
  { timestamp := e.timestamp
    price := round2 price
    price_low := round2 (price - confidence_std)
    price_high := round2 (price + confidence_std)
    confidence_std := round2 confidence_std
    restlast_gw := e.restlast_gw }

/-- `_calculate_price_forecast` over the combined forecast list. -/
def calculatePriceForecast (mult offset now : ℚ) (entries : List ForecastEntry) :
    List PriceEntry :=
  entries.map (priceEntryOf mult offset now)

/-- C3: for every entry of the forward residual-load series, the forecast
contains its image, whose price is `multiplier * restlast_gw + offset`
rounded to 2 decimals. -/
theorem price_forecast_linear (mult offset now : ℚ) (entries : List ForecastEntry)
    (e : ForecastEntry) (he : e ∈ entries) :
    priceEntryOf mult offset now e ∈ calculatePriceForecast mult offset now entries ∧
    (priceEntryOf mult offset now e).price = round2 (mult * e.restlast_gw + offset) ∧
    (priceEntryOf mult offset now e).restlast_gw = e.restlast_gw ∧
    (priceEntryOf mult offset now e).timestamp = e.timestamp :=
  ⟨List.mem_map_of_mem _ he, rfl, rfl, rfl⟩

def c3entry : ForecastEntry := ⟨0, 0, 0, 0, 0, 2⟩

/-- Witness for C3: multiplier 3, offset 1, restlast 2 gives price 7. -/
theorem price_forecast_linear_witness :
    priceEntryOf 3 1 0 c3entry ∈ calculatePriceForecast 3 1 0 [c3entry] ∧
    (priceEntryOf 3 1 0 c3entry).price = round2 (3 * c3entry.restlast_gw + 1) ∧
    (priceEntryOf 3 1 0 c3entry).restlast_gw = c3entry.restlast_gw ∧
    (priceEntryOf 3 1 0 c3entry).timestamp = c3entry.timestamp :=
  price_forecast_linear 3 1 0 [c3entry] c3entry (by simp)

theorem priceEntryOf_timestamp (mult offset now : ℚ) (e : ForecastEntry) :
    (priceEntryOf mult offset now e).timestamp = e.timestamp := rfl

theorem priceEntryOf_confidence_std (mult offset now : ℚ) (e : ForecastEntry) :
    (priceEntryOf mult offset now e).confidence_std = round2 (stdAt now e.timestamp) := rfl

theorem priceEntryOf_price_low (mult offset now : ℚ) (e : ForecastEntry) :
    (priceEntryOf mult offset now e).price_low =
      round2 (mult * e.restlast_gw + offset - stdAt now e.timestamp) := rfl

theorem priceEntryOf_price_high (mult offset now : ℚ) (e : ForecastEntry) :
    (priceEntryOf mult offset now e).price_high =
      round2 (mult * e.restlast_gw + offset + stdAt now e.timestamp) := rfl

theorem mkForecastEntry_timestamp (cons w1 w2 s : List NedPoint) (k : Nat) :
    (mkForecastEntry cons w1 w2 s k).timestamp = k := rfl

/-- C7: in every price forecast the pipeline produces (the forecaster is
applied to the combiner output, whose timestamps are distinct whole hours),
the later of two entries has both the larger rounded `confidence_std` and the
larger band width `price_high - price_low`: the hourly growth of the standard
deviation (1/32 per hour) dominates the rounding jitter (at most 1/100 per
band). -/
theorem widening_band (cons w1 w2 s : List NedPoint) (mult offset now : ℚ)
    (p q : PriceEntry)
    (hp : p ∈ calculatePriceForecast mult offset now (combineNedData cons w1 w2 s))
    (hq : q ∈ calculatePriceForecast mult offset now (combineNedData cons w1 w2 s))
    (hlt : p.timestamp < q.timestamp) :
    p.confidence_std ≤ q.confidence_std ∧
    p.price_high - p.price_low ≤ q.price_high - q.price_low := by
  obtain ⟨e1, he1, rfl⟩ := List.mem_map.mp hp
  obtain ⟨e2, he2, rfl⟩ := List.mem_map.mp hq
  obtain ⟨k1, hk1, rfl⟩ := List.mem_map.mp he1
  obtain ⟨k2, hk2, rfl⟩ := List.mem_map.mp he2
  have d1 := sixty_dvd_of_mem_hourKeys hk1
  have d2 := sixty_dvd_of_mem_hourKeys hk2
  rw [priceEntryOf_timestamp, priceEntryOf_timestamp,
    mkForecastEntry_timestamp, mkForecastEntry_timestamp] at hlt
  have hk : k1 + 60 ≤ k2 := by omega
  have hkq : (k1 : ℚ) + 60 ≤ (k2 : ℚ) := by exact_mod_cast hk
  have hdiff : stdAt now k2 - stdAt now k1 = ((k2 : ℚ) - (k1 : ℚ)) / 1920 := by
    unfold stdAt
    ring
  have hs : stdAt now k1 + 1/32 ≤ stdAt now k2 := by linarith
  constructor
  · rw [priceEntryOf_confidence_std, priceEntryOf_confidence_std,
      mkForecastEntry_timestamp, mkForecastEntry_timestamp]
    exact round2_mono (by linarith)
  · rw [priceEntryOf_price_low, priceEntryOf_price_high,
      priceEntryOf_price_low, priceEntryOf_price_high,
      mkForecastEntry_timestamp, mkForecastEntry_timestamp]
    have b1 := round2_bounds (mult * (mkForecastEntry cons w1 w2 s k1).restlast_gw +
      offset + stdAt now k1)
    have b2 := round2_bounds (mult * (mkForecastEntry cons w1 w2 s k1).restlast_gw +
      offset - stdAt now k1)
    have b3 := round2_bounds (mult * (mkForecastEntry cons w1 w2 s k2).restlast_gw +
      offset + stdAt now k2)
    have b4 := round2_bounds (mult * (mkForecastEntry cons w1 w2 s k2).restlast_gw +
      offset - stdAt now k2)
    linarith [b1.1, b1.2, b2.1, b2.2, b3.1, b3.2, b4.1, b4.2]

def c7cons : List NedPoint := [⟨some 0, some 0⟩, ⟨some 60, some 0⟩]

def c7p : PriceEntry := ⟨0, 0, -(1/2), 1/2, 1/2, 0⟩

def c7q : PriceEntry := ⟨60, 0, -(53/100), 53/100, 53/100, 0⟩

/-- Witness for C7 on a two-hour pipeline run. -/
theorem widening_band_witness :
    c7p.confidence_std ≤ c7q.confidence_std ∧
    c7p.price_high - c7p.price_low ≤ c7q.price_high - c7q.price_low :=
  widening_band c7cons [] [] [] 0 0 0 c7p c7q
    (by norm_num [calculatePriceForecast, priceEntryOf, stdAt, combineNedData,
      hourKeys, hourKey, mkForecastEntry, c7cons, c7p,
      bucketAvg, consBucket, otherBucket, otherVals, validIdx, consKeyAt, valueD,
      List.filterMap, List.dedup, List.insertionSort, List.orderedInsert,
      List.range_succ, round3, round2, roundTo, rhe])
    (by norm_num [calculatePriceForecast, priceEntryOf, stdAt, combineNedData,
      hourKeys, hourKey, mkForecastEntry, c7cons, c7q,
      bucketAvg, consBucket, otherBucket, otherVals, validIdx, consKeyAt, valueD,
      List.filterMap, List.dedup, List.insertionSort, List.orderedInsert,
      List.range_succ, round3, round2, roundTo, rhe])
    (by norm_num [c7p, c7q])

/-! ### Least squares fit, R², and the calibration gate -/

/-- `sum(l) / len(l)`. -/
def meanOf (l : List ℚ) : ℚ := l.sum / l.length

/-- `s_xx = sum((x - mean_x) ** 2 for x in xs)`. -/
def sxx (xs : List ℚ) : ℚ := (xs.map (fun x => (x - meanOf xs) ^ 2)).sum

/-- `s_xy` as the code computes it: `mean_y` is `sum(ys) / n` with
`n = len(xs)`. -/
def sxyN (xs ys : List ℚ) : ℚ :=
  ((xs.zip ys).map (fun p =>
    (p.1 - meanOf xs) * (p.2 - ys.sum / (xs.length : ℚ)))).sum

/-- `s_xy` with each mean taken over its own list (coincides with `sxyN` on
equal-length lists). -/
def sxy (xs ys : List ℚ) : ℚ :=
  ((xs.zip ys).map (fun p => (p.1 - meanOf xs) * (p.2 - meanOf ys))).sum

/-- `_fit_linear`: least squares without numpy; returns the current
`(multiplier, offset)` when there are fewer than 2 points or the x-variance
sum is below `0.001`. -/
def fitLinear (cur : ℚ × ℚ) (xs ys : List ℚ) : ℚ × ℚ :=
  if xs.length < 2 then cur
  else if sxx xs < 1/1000 then cur
  else (sxyN xs ys / sxx xs,
    ys.sum / (xs.length : ℚ) - (sxyN xs ys / sxx xs) * meanOf xs)

theorem sxyN_eq {xs ys : List ℚ} (hlen : xs.length = ys.length) :
    sxyN xs ys = sxy xs ys := by
  unfold sxyN sxy meanOf
  rw [hlen]

/-- C4: on equal-length lists with at least 2 points and `s_xx` at least the
guard threshold `0.001`, `_fit_linear` returns the ordinary-least-squares
slope and intercept. -/
theorem fitLinear_ols (cur : ℚ × ℚ) (xs ys : List ℚ) (hlen : xs.length = ys.length)
    (h2 : 2 ≤ xs.length) (hs : 1/1000 ≤ sxx xs) :
    fitLinear cur xs ys =
      (sxy xs ys / sxx xs, meanOf ys - (sxy xs ys / sxx xs) * meanOf xs) := by
  unfold fitLinear
  rw [if_neg (not_lt.mpr h2), if_neg (not_lt.mpr hs), sxyN_eq hlen]
  unfold meanOf
  rw [hlen]

/-- Witness for C4 on `xs = ys = [0, 1]`. -/
theorem fitLinear_ols_witness :
    fitLinear (5, 5) [0, 1] [0, 1] =
      (sxy [0, 1] [0, 1] / sxx [0, 1],
       meanOf [0, 1] - (sxy [0, 1] [0, 1] / sxx [0, 1]) * meanOf [0, 1]) :=
  fitLinear_ols (5, 5) [0, 1] [0, 1] rfl (by norm_num)
    (by norm_num [sxx, meanOf])

/-- `ss_tot = sum((y - mean_actual) ** 2 for y in actuals)`. -/
def ssTotOf (actuals : List ℚ) : ℚ :=
  (actuals.map (fun y => (y - meanOf actuals) ^ 2)).sum

/-- `ss_res = sum((y - p) ** 2 for y, p in zip(actuals, predictions))`. -/
def ssResOf (actuals predictions : List ℚ) : ℚ :=
  ((actuals.zip predictions).map (fun yp => (yp.1 - yp.2) ^ 2)).sum

/-- `_calculate_r2`: 0 on an empty list or a tiny total sum of squares,
otherwise `max(0, 1 - ss_res / ss_tot)`. -/
def calculateR2 (actuals predictions : List ℚ) : ℚ :=
  if actuals.length = 0 then 0
  else if ssTotOf actuals < 1/10000 then 0
  else max 0 (1 - ssResOf actuals predictions / ssTotOf actuals)

/-- C10: `_calculate_r2` always lands in `[0, 1]`, and returns 0 on an empty
actuals list or when the total sum of squares is below the `0.0001` guard. -/
theorem calculateR2_range (actuals predictions : List ℚ)
    (hlen : actuals.length = predictions.length) :
    0 ≤ calculateR2 actuals predictions ∧ calculateR2 actuals predictions ≤ 1 ∧
    ((actuals = [] ∨ ssTotOf actuals < 1/10000) →
      calculateR2 actuals predictions = 0) := by
  refine ⟨?_, ?_, ?_⟩
  · unfold calculateR2
    split
    · exact le_refl 0
    · split
      · exact le_refl 0
      · exact le_max_left 0 _
  · unfold calculateR2
    split
    · norm_num
    · split
      · norm_num
      · rename_i h1 h2
        have htot : (1 : ℚ)/10000 ≤ ssTotOf actuals := not_lt.mp h2
        have hres : 0 ≤ ssResOf actuals predictions := by
          unfold ssResOf
          apply List.sum_nonneg
          intro x hx
          obtain ⟨yp, _, rfl⟩ := List.mem_map.mp hx
          positivity
        have hdiv : 0 ≤ ssResOf actuals predictions / ssTotOf actuals :=
          div_nonneg hres (by linarith)
        exact max_le (by norm_num) (by linarith)
  · intro hc
    rcases hc with rfl | h
    · rfl
    · unfold calculateR2
      split
      · rfl
      · simp [h]

/-- Witness for C10 where the `ss_tot` guard fires. -/
theorem calculateR2_range_witness :
    0 ≤ calculateR2 [0, 1/100] [5, 7] ∧ calculateR2 [0, 1/100] [5, 7] ≤ 1 ∧
    (([0, 1/100] = ([] : List ℚ) ∨ ssTotOf [0, 1/100] < 1/10000) →
      calculateR2 [0, 1/100] [5, 7] = 0) :=
  calculateR2_range [0, 1/100] [5, 7] rfl

/-! ### The calibration run (`_calibrate_model`) -/

/-- One point of `_get_historical_prices`: a recorder timestamp (seconds) and
a price that may be missing. -/
structure HistPrice where
  timestamp : ℚ
  price : Option ℚ
deriving DecidableEq

/-- The inner loop of step 3: the first historical restlast entry within one
hour (3600 s) of the given price timestamp. -/
def findRestlast (restlast : List (ℚ × ℚ)) (ts : ℚ) : Option ℚ :=
  (restlast.find? (fun r => decide (|ts - r.1| < 3600))).map Prod.snd

/-- Step 3 of `_calibrate_model`: pair every price point that has a price with
the first matching restlast value. -/
def matchedData (prices : List HistPrice) (restlast : List (ℚ × ℚ)) : List (ℚ × ℚ) :=
  prices.filterMap (fun pp =>
    match findRestlast restlast pp.timestamp, pp.price with
    | some r, some pr => some (r, pr)
    | _, _ => none)

/-- The calibration fields the coordinator mutates. -/
structure CalibState where
  multiplier : ℚ
  offset : ℚ
  r2 : Option ℚ
  mae : Option ℚ
  samples : Nat
  last_calibration : Option ℚ
deriving DecidableEq

/-- Step 4: the freshly fitted `(new_mult, new_offset)`. -/
def newFit (st : CalibState) (matched : List (ℚ × ℚ)) : ℚ × ℚ :=
  fitLinear (st.multiplier, st.offset) (matched.map Prod.fst) (matched.map Prod.snd)

/-- Step 5: `predictions = [new_mult * x + new_offset for x in xs]`. -/
def fitPredictions (st : CalibState) (matched : List (ℚ × ℚ)) : List ℚ :=
  (matched.map Prod.fst).map
    (fun x => (newFit st matched).1 * x + (newFit st matched).2)

/-- Step 5: the fit R². -/
def fitR2 (st : CalibState) (matched : List (ℚ × ℚ)) : ℚ :=
  calculateR2 (matched.map Prod.snd) (fitPredictions st matched)

/-- Step 5: `mae = sum(abs(y - p) ...) / len(ys)`. -/
def fitMae (st : CalibState) (matched : List (ℚ × ℚ)) : ℚ :=
  (((matched.map Prod.snd).zip (fitPredictions st matched)).map
    (fun p => |p.1 - p.2|)).sum / ((matched.map Prod.snd).length : ℚ)

/-- `_calibrate_model` as a transition on the calibration state: bail out
(leaving the state untouched) when fewer than 50 price points or fewer than
50 matched points are available, fit, and adopt the fit only when
`0 < new_mult < 10`, `-20 < new_offset < 20` and `r2 > 0.2`. -/
def calibrateModel (now : ℚ) (prices : List HistPrice) (restlast : List (ℚ × ℚ))
    (st : CalibState) : CalibState :=
  if prices.length < 50 then st
  else if (matchedData prices restlast).length < 50 then st
  else if 0 < (newFit st (matchedData prices restlast)).1 ∧
          (newFit st (matchedData prices restlast)).1 < 10 ∧
          -20 < (newFit st (matchedData prices restlast)).2 ∧
          (newFit st (matchedData prices restlast)).2 < 20 ∧
          1/5 < fitR2 st (matchedData prices restlast) then
    { multiplier := (newFit st (matchedData prices restlast)).1
      offset := (newFit st (matchedData prices restlast)).2
      r2 := some (fitR2 st (matchedData prices restlast))
      mae := some (fitMae st (matchedData prices restlast))
      samples := (matchedData prices restlast).length
      last_calibration := some now }
  else st

/-- C5: a calibration run either leaves the whole state (multiplier, offset,
r2, mae, sample count, last-calibration time) unchanged, or it had at least
50 price points and 50 matched points, the fit R² exceeded 0.2, and the state
becomes exactly the adopted fit. -/
theorem calibrate_gate (now : ℚ) (prices : List HistPrice)
    (restlast : List (ℚ × ℚ)) (st : CalibState) :
    calibrateModel now prices restlast st = st ∨
    (50 ≤ prices.length ∧ 50 ≤ (matchedData prices restlast).length ∧
     1/5 < fitR2 st (matchedData prices restlast) ∧
     calibrateModel now prices restlast st =
       { multiplier := (newFit st (matchedData prices restlast)).1
         offset := (newFit st (matchedData prices restlast)).2
         r2 := some (fitR2 st (matchedData prices restlast))
         mae := some (fitMae st (matchedData prices restlast))
         samples := (matchedData prices restlast).length
         last_calibration := some now }) := by
  unfold calibrateModel
  split
  · exact Or.inl rfl
  · rename_i h1
    split
    · exact Or.inl rfl
    · rename_i h2
      split
      · rename_i h3
        exact Or.inr ⟨not_lt.mp h1, not_lt.mp h2, h3.2.2.2.2, rfl⟩
      · exact Or.inl rfl

/-! ### The cheapest-window search (`_find_best_window`) -/

/-- The dict `_find_best_window` builds for a candidate window. -/
structure Window where
  start : Nat
  stop : Nat
  avg_price : ℚ
  min_price : ℚ
  max_price : ℚ
deriving DecidableEq

def dummyPriceEntry : PriceEntry := ⟨0, 0, 0, 0, 0, 0⟩

/-- `sum(p["price"] for p in window)`. -/
def priceSum (w : List PriceEntry) : ℚ := (w.map PriceEntry.price).sum

/-- The window dict for slice `w`: first/last timestamps and the rounded
average/min/max prices. -/
def mkWindow (hours : Nat) (w : List PriceEntry) : Window :=
  { start := (w.headD dummyPriceEntry).timestamp
    stop := (w.getLastD dummyPriceEntry).timestamp
    avg_price := round2 (priceSum w / hours)
    min_price := round2 (((w.map PriceEntry.price).min?).getD 0)
    max_price := round2 (((w.map PriceEntry.price).max?).getD 0) }

/-- The loop body: replace the incumbent when the candidate average
(unrounded) is strictly below the stored (rounded) `avg_price`. -/
def bestStep (hours : Nat) (best : Option Window) (w : List PriceEntry) : Option Window :=
  match best with
  | none => some (mkWindow hours w)
  | some b => if priceSum w / hours < b.avg_price then some (mkWindow hours w) else some b

/-- The list of contiguous length-`hours` slices `prices[i : i + hours]` for
`i in range(len(prices) - hours + 1)`. -/
def windowsOf (prices : List PriceEntry) (hours : Nat) : List (List PriceEntry) :=
  (List.range (prices.length - hours + 1)).map (fun i => (prices.drop i).take hours)

/-- `_find_best_window`. -/
def findBestWindow (prices : List PriceEntry) (hours : Nat) : Option Window :=
  if prices = [] ∨ prices.length < hours then none
  else (windowsOf prices hours).foldl (bestStep hours) none

theorem bestStep_none (hours : Nat) (w : List PriceEntry) :
    bestStep hours none w = some (mkWindow hours w) := rfl

theorem bestStep_some (hours : Nat) (a : Window) (w : List PriceEntry) :
    bestStep hours (some a) w =
      if priceSum w / (hours : ℚ) < a.avg_price then some (mkWindow hours w)
      else some a := rfl

theorem bestStep_isSome (hours : Nat) (acc : Option Window) (w : List PriceEntry) :
    (bestStep hours acc w).isSome := by
  cases acc with
  | none => rfl
  | some b =>
    by_cases h : priceSum w / (hours : ℚ) < b.avg_price <;>
      simp [bestStep_some, h]

theorem foldl_bestStep_isSome (hours : Nat) (ws : List (List PriceEntry)) :
    ∀ acc : Option Window, (acc.isSome ∨ ws ≠ []) →
      (ws.foldl (bestStep hours) acc).isSome := by
  induction ws with
  | nil =>
    intro acc h
    rcases h with h | h
    · simpa using h
    · exact absurd rfl h
  | cons w ws ih =>
    intro acc _
    rw [List.foldl_cons]
    exact ih _ (Or.inl (bestStep_isSome hours acc w))

theorem foldl_bestStep_spec (hours : Nat) (ws : List (List PriceEntry)) :
    ∀ acc : Option Window,
      (∀ c, acc = some c → round2 c.avg_price = c.avg_price) →
      ∀ b, ws.foldl (bestStep hours) acc = some b →
        round2 b.avg_price = b.avg_price ∧
        (acc = some b ∨ ∃ w ∈ ws, b = mkWindow hours w) ∧
        (∀ c, acc = some c → b.avg_price ≤ c.avg_price) ∧
        (∀ w ∈ ws, b.avg_price ≤ round2 (priceSum w / hours)) := by
  induction ws with
  | nil =>
    intro acc hacc b hb
    simp only [List.foldl_nil] at hb
    refine ⟨hacc b hb, Or.inl hb, ?_, ?_⟩
    · intro c hc
      rw [hb] at hc
      cases hc
      exact le_refl _
    · intro w hw
      cases hw
  | cons w ws ih =>
    intro acc hacc b hb
    rw [List.foldl_cons] at hb
    have hacc' : ∀ c, bestStep hours acc w = some c → round2 c.avg_price = c.avg_price := by
      intro c hc
      cases acc with
      | none =>
        cases hc
        exact round2_idem _
      | some a =>
        rw [bestStep_some] at hc
        split at hc
        · cases hc
          exact round2_idem _
        · cases hc
          exact hacc _ rfl
    obtain ⟨hfix, hprov, hle, hall⟩ := ih (bestStep hours acc w) hacc' b hb
    refine ⟨hfix, ?_, ?_, ?_⟩
    · rcases hprov with h | ⟨w', hw', rfl⟩
      · cases acc with
        | none =>
          cases h
          exact Or.inr ⟨w, List.mem_cons_self _ _, rfl⟩
        | some a =>
          rw [bestStep_some] at h
          split at h
          · cases h
            exact Or.inr ⟨w, List.mem_cons_self _ _, rfl⟩
          · cases h
            exact Or.inl rfl
      · exact Or.inr ⟨w', List.mem_cons_of_mem _ hw', rfl⟩
    · intro c hc
      subst hc
      by_cases hcmp : priceSum w / hours < c.avg_price
      · have hstep : bestStep hours (some c) w = some (mkWindow hours w) := by
          rw [bestStep_some, if_pos hcmp]
        have hb1 : b.avg_price ≤ (mkWindow hours w).avg_price := by
          apply hle
          rw [hstep]
        have hb2 : (mkWindow hours w).avg_price ≤ c.avg_price := by
          have := round2_mono hcmp.le
          rw [hacc c rfl] at this
          exact this
        exact le_trans hb1 hb2
      · have hstep : bestStep hours (some c) w = some c := by
          rw [bestStep_some, if_neg hcmp]
        apply hle
        rw [hstep]
    · intro w' hw'
      rcases List.mem_cons.mp hw' with rfl | hw'
      · cases acc with
        | none =>
          have : b.avg_price ≤ (mkWindow hours w').avg_price := hle _ rfl
          exact this
        | some a =>
          by_cases hcmp : priceSum w' / hours < a.avg_price
          · have hstep : bestStep hours (some a) w' = some (mkWindow hours w') := by
              rw [bestStep_some, if_pos hcmp]
            exact hle _ hstep
          · have hstep : bestStep hours (some a) w' = some a := by
              rw [bestStep_some, if_neg hcmp]
            have hba : b.avg_price ≤ a.avg_price := hle _ hstep
            have haw : a.avg_price ≤ round2 (priceSum w' / hours) := by
              have := round2_mono (not_lt.mp hcmp)
              rw [hacc a rfl] at this
              exact this
            exact le_trans hba haw
      · exact hall w' hw'

/-- C1 amended: `_find_best_window` returns `None` exactly when fewer than `N`
samples are given; otherwise it returns one of the contiguous length-`N`
windows, whose stored (2-decimal-rounded) average price is minimal among the
rounded averages of all such windows. Because each candidate is compared
against the rounded incumbent, the window it settles on need not be the exact
mean minimizer and ties need not go to the earliest window. -/
theorem findBestWindow_amended (prices : List PriceEntry) (hours : Nat)
    (h1 : 1 ≤ hours) :
    (findBestWindow prices hours = none ↔ prices.length < hours) ∧
    ∀ b, findBestWindow prices hours = some b →
      (∃ w ∈ windowsOf prices hours, b = mkWindow hours w) ∧
      ∀ w ∈ windowsOf prices hours, b.avg_price ≤ round2 (priceSum w / hours) := by
  by_cases hlt : prices.length < hours
  · constructor
    · simp [findBestWindow, hlt]
    · intro b hb
      rw [findBestWindow, if_pos (Or.inr hlt)] at hb
      cases hb
  · have hne : prices ≠ [] := by
      intro hnil
      rw [hnil] at hlt
      simp at hlt
      omega
    have hcond : ¬(prices = [] ∨ prices.length < hours) := by
      intro h
      rcases h with h | h
      · exact hne h
      · exact hlt h
    have hws : windowsOf prices hours ≠ [] := by
      unfold windowsOf
      intro h
      have := congrArg List.length h
      simp at this
    constructor
    · rw [findBestWindow, if_neg hcond]
      constructor
      · intro h
        have := foldl_bestStep_isSome hours (windowsOf prices hours) none (Or.inr hws)
        rw [h] at this
        cases this
      · intro h
        exact absurd h hlt
    · intro b hb
      rw [findBestWindow, if_neg hcond] at hb
      obtain ⟨_, hprov, _, hall⟩ := foldl_bestStep_spec hours (windowsOf prices hours)
        none (by intro c hc; cases hc) b hb
      rcases hprov with h | h
      · cases h
      · exact ⟨h, hall⟩

def c1witnessEntry : PriceEntry := ⟨0, 1, 0, 0, 0, 0⟩

/-- Witness for the amended C1 on a one-sample list. -/
theorem findBestWindow_amended_witness :
    (findBestWindow [c1witnessEntry] 1 = none ↔ ([c1witnessEntry] : List PriceEntry).length < 1) ∧
    ∀ b, findBestWindow [c1witnessEntry] 1 = some b →
      (∃ w ∈ windowsOf [c1witnessEntry] 1, b = mkWindow 1 w) ∧
      ∀ w ∈ windowsOf [c1witnessEntry] 1, b.avg_price ≤ round2 (priceSum w / 1) :=
  findBestWindow_amended [c1witnessEntry] 1 (by norm_num)

def c1p1 : PriceEntry := ⟨0, 2499/250, 0, 0, 0, 0⟩

def c1p2 : PriceEntry := ⟨60, 2499/250, 0, 0, 0, 0⟩

/-- C1 counterexample: two samples with exactly equal prices (9.996 each, a
tie for the cheapest 1-hour window), yet the function returns the window
starting at the *second* sample: the first window is stored with the rounded
average 10.00 and the second candidate average 9.996 compares strictly below
it, so the tie is not broken by first occurrence. -/
theorem findBestWindow_cex :
    c1p1.price = c1p2.price ∧ c1p1.timestamp < c1p2.timestamp ∧
    (findBestWindow [c1p1, c1p2] 1).map Window.start = some c1p2.timestamp := by
  refine ⟨rfl, by norm_num [c1p1, c1p2], ?_⟩
  have heval : findBestWindow [c1p1, c1p2] 1 = some ⟨60, 60, 10, 10, 10⟩ := by
    norm_num [findBestWindow, windowsOf, bestStep, mkWindow, priceSum, dummyPriceEntry,
      c1p1, c1p2, round2, roundTo, rhe, List.range_succ, List.min?, List.max?]
    intro h
    simp at h
  rw [heval]
  simp [c1p2]

/-! ### The charge advisor (`_calculate_charge_advice`) and the sensor value
function (`_get_charge_advice` in `sensor.py`) -/

/-- `hours_ahead = (p["timestamp"] - now).total_seconds() / 3600`
(minutes / 60 here). -/
def hoursAhead (now : ℚ) (p : PriceEntry) : ℚ := ((p.timestamp : ℚ) - now) / 60

/-- Entries 0–48 h ahead. -/
def windowNow (now : ℚ) (pf : List PriceEntry) : List PriceEntry :=
  pf.filter (fun p => decide (0 ≤ hoursAhead now p ∧ hoursAhead now p < 48))

/-- Entries 48–96 h ahead. -/
def windowLater (now : ℚ) (pf : List PriceEntry) : List PriceEntry :=
  pf.filter (fun p => decide (48 ≤ hoursAhead now p ∧ hoursAhead now p < 96))

/-- Entries 96–168 h ahead. -/
def windowMuchLater (now : ℚ) (pf : List PriceEntry) : List PriceEntry :=
  pf.filter (fun p => decide (96 ≤ hoursAhead now p ∧ hoursAhead now p < 168))

/-- The tail of the `elif` chain: try the 4–7-day window at the 0.85
threshold, otherwise charge now. -/
def fallbackAdvice (n : Window) (bm : Option Window) : String × Option Window × ℚ :=
  match bm with
  | some m =>
    if m.avg_price < n.avg_price * (17/20) then
      (("wait_4_7_days"), some m, n.avg_price - m.avg_price)
    else (("charge_now"), some n, 0)
  | none => (("charge_now"), some n, 0)

/-- The `if/elif/elif/else` advice selection: `(advice, best_option, savings)`. -/
def adviceTriple (bn bl bm : Option Window) : String × Option Window × ℚ :=
  match bn with
  | none => (("no_data"), none, 0)
  | some n =>
    match bl with
    | some l =>
      if l.avg_price < n.avg_price * (9/10) then
        (("wait_2_3_days"), some l, n.avg_price - l.avg_price)
      else fallbackAdvice n bm
    | none => fallbackAdvice n bm

/-- The heterogeneous values of the `charge_advice` dict. -/
inductive AdviceVal where
  | str : String → AdviceVal
  | num : ℚ → AdviceVal
  | win : Option Window → AdviceVal
deriving DecidableEq

/-- `_calculate_charge_advice`, returning the result dict as an association
list (keys in insertion order). -/
def calculateChargeAdvice (now : ℚ) (chargeWindowHours : Nat) (pf : List PriceEntry) :
    List (String × AdviceVal) :=
  if pf = [] then
    [(("advice"), AdviceVal.str ("no_data")),
     (("best_window"), AdviceVal.win none),
     (("savings_ct_per_kwh"), AdviceVal.num 0)]
  else
    let best_now := findBestWindow (windowNow now pf) chargeWindowHours
    let best_later := findBestWindow (windowLater now pf) chargeWindowHours
    let best_much_later := findBestWindow (windowMuchLater now pf) chargeWindowHours
    let t := adviceTriple best_now best_later best_much_later
    [(("advice"), AdviceVal.str t.1),
     (("best_window"), AdviceVal.win t.2.1),
     (("savings_ct_per_kwh"), AdviceVal.num (if t.2.2 = 0 then 0 else round2 t.2.2)),
     (("window_now"), AdviceVal.win best_now),
     (("window_later"), AdviceVal.win best_later),
     (("window_much_later"), AdviceVal.win best_much_later)]

/-- `dict.get(key)`: first binding of the key, `None` when absent. -/
def lookupKey (k : String) (d : List (String × AdviceVal)) : Option AdviceVal :=
  (d.find? (fun kv => decide (kv.1 = k))).map Prod.snd

/-- `_get_charge_advice` from `sensor.py`: reads `charge_advice["next_window"]`
and classifies now against its start/end; any missing or falsy value yields
`"no_window"`. -/
def getChargeAdvice (now : ℚ) (d : List (String × AdviceVal)) : String :=
  match lookupKey ("next_window") d with
  | some (AdviceVal.win (some w)) =>
    if (w.start : ℚ) ≤ now ∧ now < (w.stop : ℚ) then ("charging")
    else if now < (w.start : ℚ) then ("waiting")
    else ("no_window")
  | _ => ("no_window")

/-- C9: the coordinator never writes a `next_window` (or `windows`) key, so
the charge-advice sensor value is always `"no_window"` on its output. -/
theorem charge_advice_no_window (now now2 : ℚ) (wh : Nat) (pf : List PriceEntry) :
    lookupKey ("next_window") (calculateChargeAdvice now wh pf) = none ∧
    lookupKey ("windows") (calculateChargeAdvice now wh pf) = none ∧
    getChargeAdvice now2 (calculateChargeAdvice now wh pf) = ("no_window") := by
  have h1 : lookupKey ("next_window") (calculateChargeAdvice now wh pf) = none := by
    unfold calculateChargeAdvice
    split <;> simp [lookupKey, List.find?]
  have h2 : lookupKey ("windows") (calculateChargeAdvice now wh pf) = none := by
    unfold calculateChargeAdvice
    split <;> simp [lookupKey, List.find?]
  refine ⟨h1, h2, ?_⟩
  unfold getChargeAdvice
  rw [h1]

/-! ### The HTTP requests (C8): `_fetch_ned_data_type` vs `validate_api_token` -/

/-- The observable shape of an outgoing GET request. -/
structure HttpRequest where
  url : String
  params : List (String × String)
  headers : List (String × String)

/-- `NED_API_BASE` from `const.py`. -/
def nedApiBase : String := "https://api.ned.nl/v1"

/-- The GET request `_fetch_ned_data_type` issues:
`session.get(url, params=params, timeout=...)` — no `headers=` argument, and
the session is created as `aiohttp.ClientSession()` with no default headers,
so the header list is empty. -/
def fetchNedDataTypeRequest (dataType : Nat) : HttpRequest :=
  { url := nedApiBase ++ ("/utilizations/") ++ toString dataType ++ ("/values")
    params := [(("granularity"), ("fifteen_minutes")),
               (("classification"), ("TenneT"))]
    headers := [] }

/-- The GET request `validate_api_token` (config_flow.py) issues, which does
carry the API token header. -/
def validateApiTokenRequest (apiToken startDate endDate : String) : HttpRequest :=
  { url := nedApiBase ++ ("/utilizations")
    params := [(("point"), ("0")), (("type"), ("1")), (("granularity"), ("5")),
               (("granularitytimezone"), ("1")), (("classification"), ("1")),
               (("activity"), ("1")),
               (("validfrom[after]"), startDate),
               (("validfrom[strictly_before]"), endDate)]
    headers := [(("X-AUTH-TOKEN"), apiToken),
                (("accept"), ("application/ld+json"))] }

/-- C8 evidence: the coordinator fetch for any data series (e.g. 59,
consumption) carries no headers at all — in particular no API-key header —
while the config-flow validation request does send `X-AUTH-TOKEN`. -/
theorem fetch_request_sends_no_auth_header :
    (fetchNedDataTypeRequest 59).headers = [] ∧
    (∀ dataType, (fetchNedDataTypeRequest dataType).headers = []) ∧
    ∀ tok s e, (("X-AUTH-TOKEN"), tok) ∈ (validateApiTokenRequest tok s e).headers :=
  ⟨rfl, fun _ => rfl, fun _ _ _ => List.mem_cons_self _ _⟩

end NedEpex
